import Mathlib

/-!
Shallow embedding of the `URI-ABD/anomaly_detection` repository
(`src/datasets.py` and `src/plot.py`) and proofs about its specified
behaviour.

Numpy arrays are modelled as a dtype tag, a shape, and a flat list of
exact rational values (real arithmetic is modelled exactly; claims about
bit-level float rounding are out of scope).  Filesystem effects are
modelled by explicit state records plus a list of write events, and
Python exceptions by `Except` with an error type naming the exception
class raised.
-/

namespace AnomalyDetection

/-- Numpy dtypes appearing in `datasets.py`: `np.float32`, `np.float64`
(`dtype=float`), `np.uint8`, and `np.int64` (`dtype=int`). -/
inductive DType where
  | float32
  | float64
  | uint8
  | int64
deriving DecidableEq, Repr

/-- Model of a numpy `ndarray`: dtype tag, shape, and row-major flat values. -/
structure NDArray where
  dtype : DType
  shape : List Nat
  vals : List ℚ
deriving DecidableEq, Repr

/-- Integer part of a rational, truncated toward zero (C-style cast used by
numpy when converting floats to integer dtypes). -/
def intTrunc (q : ℚ) : ℤ :=
  q.num.tdiv (q.den : ℤ)

/-- Value conversion performed by `np.asarray(_, dtype=dt)`: float dtypes keep
the (exactly modelled) value, integer dtypes truncate toward zero, and `uint8`
additionally wraps modulo 256. -/
def castVal (dt : DType) (q : ℚ) : ℚ :=
  match dt with
  | .float32 => q
  | .float64 => q
  | .uint8 => ((intTrunc q).emod 256 : ℤ)
  | .int64 => (intTrunc q : ℤ)

/-- Model of `np.asarray(a, dtype=dt)`: same shape, values converted. -/
def asarray (dt : DType) (a : NDArray) : NDArray :=
  { dtype := dt, shape := a.shape, vals := a.vals.map (castVal dt) }

/-- Model of `np.squeeze`: removes every singleton dimension from the shape. -/
def squeeze (a : NDArray) : NDArray :=
  { a with shape := a.shape.filter (fun d => d != 1) }

/-- Number of rows, `a.shape[0]` (0 for an empty shape; the arrays handled by
`datasets.py` are always at least 1-dimensional). -/
def nrows (a : NDArray) : Nat :=
  a.shape.headD 0

/-- Number of scalar entries in one row (product of the trailing dimensions). -/
def rowLen (a : NDArray) : Nat :=
  a.shape.tail.prod

/-- Flat values of row `i`. -/
def takeRow (a : NDArray) (i : Nat) : List ℚ :=
  (a.vals.drop (i * rowLen a)).take (rowLen a)

/-- Model of numpy fancy indexing `a[samples]` along axis 0: the selected rows,
in order. -/
def gatherRows (a : NDArray) (idxs : List Nat) : NDArray :=
  { dtype := a.dtype
    shape := idxs.length :: a.shape.tail
    vals := (idxs.map (takeRow a)).flatten }

/-- Model of `.T` on the 2-d arrays read back from an HDF5 file (other ranks
just reverse the shape, as numpy does; only the 2-d case is exercised). -/
def transpose2d (a : NDArray) : NDArray :=
  match a.shape with
  | [r, c] =>
    { dtype := a.dtype
      shape := [c, r]
      vals := ((List.range c).map (fun i =>
        (List.range r).map (fun j => a.vals.getD (j * c + i) 0))).flatten }
  | s => { a with shape := s.reverse }

/-- The `DATASET_LINKS` dict of `datasets.py`: dataset name to download URL,
in source order. -/
def DATASET_LINKS : List (String × String) := [
  ("annthyroid", "https://www.dropbox.com/s/aifk51owxbogwav/annthyroid.mat?dl=0"),
  ("arrhythmia", "https://www.dropbox.com/s/lmlwuspn1sey48r/arrhythmia.mat?dl=0"),
  ("breastw", "https://www.dropbox.com/s/g3hlnucj71kfvq4/breastw.mat?dl=0"),
  ("cardio", "https://www.dropbox.com/s/galg3ihvxklf0qi/cardio.mat?dl=0"),
  ("cover", "https://www.dropbox.com/s/awx8iuzbu8dkxf1/cover.mat?dl=0"),
  ("glass", "https://www.dropbox.com/s/iq3hjxw77gpbl7u/glass.mat?dl=0"),
  ("http", "https://www.dropbox.com/s/iy9ucsifal754tp/http.mat?dl=0"),
  ("ionosphere", "https://www.dropbox.com/s/lpn4z73fico4uup/ionosphere.mat?dl=0"),
  ("lympho", "https://www.dropbox.com/s/ag469ssk0lmctco/lympho.mat?dl=0"),
  ("mammography", "https://www.dropbox.com/s/tq2v4hhwyv17hlk/mammography.mat?dl=0"),
  ("mnist", "https://www.dropbox.com/s/n3wurjt8v9qi6nc/mnist.mat?dl=0"),
  ("musk", "https://www.dropbox.com/s/we6aqhb0m38i60t/musk.mat?dl=0"),
  ("optdigits", "https://www.dropbox.com/s/w52ndgz5k75s514/optdigits.mat?dl=0"),
  ("pendigits", "https://www.dropbox.com/s/1x8rzb4a0lia6t1/pendigits.mat?dl=0"),
  ("pima", "https://www.dropbox.com/s/mvlwu7p0nyk2a2r/pima.mat?dl=0"),
  ("satellite", "https://www.dropbox.com/s/dpzxp8jyr9h93k5/satellite.mat?dl=0"),
  ("satimage-2", "https://www.dropbox.com/s/hckgvu9m6fs441p/satimage-2.mat?dl=0"),
  ("shuttle", "https://www.dropbox.com/s/mk8ozgisimfn3dw/shuttle.mat?dl=0"),
  ("smtp", "https://www.dropbox.com/s/dbv2u4830xri7og/smtp.mat?dl=0"),
  ("thyroid", "https://www.dropbox.com/s/bih0e15a0fukftb/thyroid.mat?dl=0"),
  ("vertebral", "https://www.dropbox.com/s/5kuqb387sgvwmrb/vertebral.mat?dl=0"),
  ("vowels", "https://www.dropbox.com/s/pa26odoq6atq9vx/vowels.mat?dl=0"),
  ("wbc", "https://www.dropbox.com/s/ebz9v9kdnvykzcb/wbc.mat?dl=0"),
  ("wine", "https://www.dropbox.com/s/uvjaudt2uto7zal/wine.mat?dl=0")]

/-- The `OTHER_DATASETS` list of `datasets.py`: names with no download path. -/
def OTHER_DATASETS : List String :=
  ["backdoor", "campaign", "celeba", "census", "donors", "fraud", "thyroid-21"]

/-- The `SHORT_NAMES` dict of `datasets.py`: dataset name to display label. -/
def SHORT_NAMES : List (String × String) := [
  ("annthyroid", "ANNTH."),
  ("arrhythmia", "ARRH."),
  ("breastw", "BRE.W"),
  ("cardio", "CARD."),
  ("cover", "COVER"),
  ("glass", "GLASS"),
  ("http", "HTTP"),
  ("ionosphere", "IONO."),
  ("lympho", "LYMP."),
  ("mammography", "MAMMO."),
  ("mnist", "MNIST"),
  ("musk", "MUSK"),
  ("optdigits", "O.DIG."),
  ("pendigits", "P.DIG."),
  ("pima", "PIMA"),
  ("satellite", "SATL."),
  ("satimage-2", "SAT.I-2"),
  ("shuttle", "SHUTTLE"),
  ("smtp", "SMTP."),
  ("thyroid", "THYR."),
  ("vertebral", "VERT."),
  ("vowels", "VOWELS"),
  ("wbc", "WBC"),
  ("wine", "WINE"),
  ("backdoor", "BACKDOOR"),
  ("campaign", "CAMPAIGN"),
  ("celeba", "CELEBA"),
  ("census", "CENSUS"),
  ("donors", "DONORS"),
  ("fraud", "FRAUD"),
  ("thyroid-21", "THYROID-21")]

/-- The `DATASET_NAMES` list: registry keys followed by the no-download names. -/
def DATASET_NAMES : List String :=
  DATASET_LINKS.map Prod.fst ++ OTHER_DATASETS

/-- Python exceptions raised (directly or by libraries) in `datasets.py`. -/
inductive PyError where
  /-- `KeyError` from a dict lookup; a subclass of `LookupError`. -/
  | keyError (key : String)
  /-- `ValueError` raised with a message. -/
  | valueError (msg : String)
  /-- Raw matrix file unreadable by `loadmat` and by the `h5py` fallback. -/
  | matReadError
  /-- `FileNotFoundError` from `np.load` on a missing path. -/
  | fileNotFoundError (path : String)
  /-- `IndexError` from numpy fancy indexing with an out-of-range index. -/
  | indexError
deriving DecidableEq, Repr

/-- Content a download can leave in `<dataset>.mat`: a dict readable by
`scipy.io.loadmat`, a v7.3/HDF5 file readable only by the `h5py` fallback,
or bytes neither parser accepts. -/
inductive MatContent where
  | matfile (entries : List (String × NDArray))
  | hdf5 (entries : List (String × NDArray))
  | unreadable
deriving DecidableEq, Repr

/-- The parse step of `get`: `loadmat` on an ordinary matrix file yields its
variable dict; on failure the `h5py` fallback keeps only the `X` and `y`
entries, as float64 and transposed; an unreadable file raises. -/
def parseMat : MatContent → Except PyError (List (String × NDArray))
  | .matfile es => .ok es
  | .hdf5 es => .ok ((es.filter (fun kv => kv.1 == "X" || kv.1 == "y")).map
      (fun kv => (kv.1, transpose2d (asarray .float64 kv.2))))
  | .unreadable => .error .matReadError

/-- On-disk state relevant to one dataset name: whether `DATA_DIR` exists,
and the contents (if present) of `<dataset>.mat`, `<dataset>.npy`, and
`<dataset>_labels.npy`. -/
structure FSState where
  dataDirExists : Bool
  matFile : Option MatContent
  dataNpy : Option NDArray
  labelsNpy : Option NDArray
deriving DecidableEq, Repr

/-- Write effects `get` can perform, in order of occurrence. -/
inductive WriteEvent where
  /-- `os.makedirs(DATA_DIR)` -/
  | mkdirDataDir
  /-- `wget` storing `<dataset>.mat` -/
  | writeMatFile
  /-- `np.save` of `<dataset>.npy` -/
  | writeDataNpy
  /-- `np.save` of `<dataset>_labels.npy` -/
  | writeLabelsNpy
deriving DecidableEq, Repr

/-- Model of `datasets.get`.  `download` is the file (if any) that the external
`wget` call would leave at `<dataset>.mat`.  Returns the Python result
(`None` on success, or the exception raised), the final filesystem state, and
the write events performed.  Mirrors the source line by line, starting with
the `DATASET_LINKS[dataset]` dict lookup. -/
def get (download : Option MatContent) (dataset : String) (st : FSState) :
    Except PyError Unit × FSState × List WriteEvent :=
  match DATASET_LINKS.lookup dataset with
  | none => (.error (.keyError dataset), st, [])
  | some _link =>
    let stDir : FSState × List WriteEvent :=
      if st.dataDirExists then (st, [])
      else ({ st with dataDirExists := true }, [.mkdirDataDir])
    let stMat : FSState × List WriteEvent :=
      if stDir.1.matFile.isSome then stDir
      else
        match download with
        | none => stDir
        | some c => ({ stDir.1 with matFile := some c }, stDir.2 ++ [.writeMatFile])
    match stMat.1.matFile with
    | none =>
      (.error (.valueError ("Could not get dataset " ++ dataset ++ ".")), stMat.1, stMat.2)
    | some content =>
      if (DATASET_LINKS.lookup dataset).isSome then
        match parseMat content with
        | .error e => (.error e, stMat.1, stMat.2)
        | .ok entries =>
          match entries.lookup "X" with
          | none => (.error (.keyError "X"), stMat.1, stMat.2)
          | some x =>
            match entries.lookup "y" with
            | none => (.error (.keyError "y"), stMat.1, stMat.2)
            | some y =>
              (.ok (),
               { stMat.1 with
                  dataNpy := some (asarray .float32 x)
                  labelsNpy := some (asarray .uint8 y) },
               stMat.2 ++ [.writeDataNpy, .writeLabelsNpy])
      else if dataset ∈ OTHER_DATASETS then (.ok (), stMat.1, stMat.2)
      else (.error (.valueError ("dataset " ++ dataset ++ " not found.")), stMat.1, stMat.2)

/-- Outlier draw size in `read`: `int(subsample * (len(outliers) / data.shape[0]))`,
evaluated in exact arithmetic as the floor of `s·o/n`. -/
def outlierDraw (s o n : Nat) : Nat :=
  s * o / n

/-- Inlier draw size in `read`: `1 + int(subsample * (len(inliers) / data.shape[0]))`. -/
def inlierDraw (s i n : Nat) : Nat :=
  1 + s * i / n

/-- Indices of label rows equal to `v`.  In the source `enumerate(labels)`
iterates the rows of the `(m, 1)` label array and `j == 1` tests the row's
single entry, so row `i` is compared through flat value `i`. -/
def labelIndices (labels : NDArray) (v : ℚ) : List Nat :=
  (List.range (nrows labels)).filter (fun i => decide (labels.vals.getD i 0 = v))

/-- Stratified subsampling step of `read`.  `chooseFn` models
`np.random.choice(_, k, replace=False)` (the population list and the draw
count to a list of drawn indices); the explicit size checks model the
`ValueError` that `np.random.choice` raises when asked for more samples than
the population holds, and the bound checks model numpy's `IndexError` on
fancy indexing. -/
def selectSamples (chooseFn : List Nat → Nat → List Nat)
    (data labels : NDArray) (subsample : Option Nat) :
    Except PyError (NDArray × NDArray) :=
  match subsample with
  | none => .ok (data, labels)
  | some s =>
    if s < nrows data then
      let outliers := labelIndices labels 1
      let inliers := labelIndices labels 0
      let kOut := outlierDraw s outliers.length (nrows data)
      let kIn := inlierDraw s inliers.length (nrows data)
      if kOut ≤ outliers.length && kIn ≤ inliers.length then
        let samples := chooseFn outliers kOut ++ chooseFn inliers kIn
        if samples.all (fun idx => decide (idx < nrows data)) &&
            samples.all (fun idx => decide (idx < nrows labels)) then
          .ok (asarray .float64 (gatherRows data samples),
               asarray .int64 (gatherRows labels samples))
        else .error .indexError
      else .error (.valueError
        "Cannot take a larger sample than population when replace=False")
    else .ok (data, labels)

/-- The `if normalization_mode is not None` step of `read`:
`normalizeFn` models `pyclam.utils.normalize`. -/
def applyMode (normalizeFn : NDArray → String → NDArray)
    (normalizationMode : Option String) (a : NDArray) : NDArray :=
  match normalizationMode with
  | some m => normalizeFn a m
  | none => a

/-- Final normalization and dtype conversion of `read`'s return line:
optionally apply the normalization, then `np.asarray(data, dtype=np.float32)`
and `np.asarray(np.squeeze(labels), dtype=np.uint8)`. -/
def finalize (normalizeFn : NDArray → String → NDArray)
    (normalizationMode : Option String) (dl : NDArray × NDArray) :
    NDArray × NDArray :=
  (asarray .float32 (applyMode normalizeFn normalizationMode dl.1),
   asarray .uint8 (squeeze dl.2))

/-- Body of `read` once `get` has (if needed) run: load both cached arrays,
subsample, normalize, convert. -/
def readLoaded (chooseFn : List Nat → Nat → List Nat)
    (normalizeFn : NDArray → String → NDArray)
    (dataset : String) (normalizationMode : Option String) (subsample : Option Nat)
    (st : FSState) (evs : List WriteEvent) :
    Except PyError (NDArray × NDArray) × FSState × List WriteEvent :=
  match st.dataNpy with
  | none => (.error (.fileNotFoundError (dataset ++ ".npy")), st, evs)
  | some data =>
    match st.labelsNpy with
    | none => (.error (.fileNotFoundError (dataset ++ "_labels.npy")), st, evs)
    | some labels =>
      ((selectSamples chooseFn data labels subsample).map
        (finalize normalizeFn normalizationMode), st, evs)

/-- Model of `datasets.read`: loads the cached arrays (running `get` first when
the feature cache is absent), optionally subsamples with class stratification,
optionally normalizes, and returns float32 features with squeezed uint8
labels. -/
def read (download : Option MatContent) (chooseFn : List Nat → Nat → List Nat)
    (normalizeFn : NDArray → String → NDArray)
    (dataset : String) (normalizationMode : Option String) (subsample : Option Nat)
    (st : FSState) :
    Except PyError (NDArray × NDArray) × FSState × List WriteEvent :=
  if st.dataNpy.isSome then
    readLoaded chooseFn normalizeFn dataset normalizationMode subsample st []
  else
    match get download dataset st with
    | (.error e, st', evs) => (.error e, st', evs)
    | (.ok _, st', evs) =>
      readLoaded chooseFn normalizeFn dataset normalizationMode subsample st' evs

/-- On-disk state relevant to `plot.embed_umap`: contents of the destination
embedding file as a flat list of float32 values, or `none` when absent. -/
structure UmapState where
  file : Option (List ℚ)
deriving DecidableEq, Repr

/-- Effects `embed_umap` can perform. -/
inductive UmapEvent where
  /-- running `umap.UMAP(...).fit_transform(data)` -/
  | computeEmbedding
  /-- creating/filling the destination file through a `w+` memmap -/
  | writeEmbeddingFile
deriving DecidableEq, Repr

/-- Model of `np.memmap(filename, dtype=np.float32, mode="r", shape=(r, c))`:
raises `ValueError` when the file holds fewer than `r * c` values, otherwise
maps the first `r * c` stored values as an `(r, c)` float32 array. -/
def memmapRead (contents : List ℚ) (r c : Nat) : Except String NDArray :=
  if r * c ≤ contents.length then
    .ok { dtype := .float32, shape := [r, c], vals := contents.take (r * c) }
  else .error "mmap length is greater than file size"

/-- Model of `plot.embed_umap`.  `fitTransform` models
`umap.UMAP(n_neighbors=…, n_components=…, metric=…).fit_transform(data)`,
returning the flat values of the computed embedding.  When the destination
file is absent, a `w+` memmap of shape `(data.shape[0], n_components)`
creates the file (zero-filled) and the slice assignment fills it with the
embedding — raising a broadcast error, with the zero file left behind, if the
embedding's size does not match.  The file is finally reopened with a
read-only memmap and returned. -/
def embed_umap (fitTransform : NDArray → Nat → Nat → String → List ℚ)
    (data : NDArray) (nNeighbors nComponents : Nat) (metric : String)
    (st : UmapState) : Except String NDArray × UmapState × List UmapEvent :=
  match st.file with
  | some contents => (memmapRead contents (nrows data) nComponents, st, [])
  | none =>
    let embedding := fitTransform data nNeighbors nComponents metric
    if embedding.length = nrows data * nComponents then
      (memmapRead embedding (nrows data) nComponents,
       { file := some embedding }, [.computeEmbedding, .writeEmbeddingFile])
    else
      (.error "could not broadcast input array",
       { file := some (List.replicate (nrows data * nComponents) 0) },
       [.computeEmbedding, .writeEmbeddingFile])

/-- One line of the `roc.csv` log. -/
inductive CsvLine where
  /-- the header line `depth,scores` -/
  | header
  /-- a record line: the depth, then the scores joined in key order -/
  | record (depth : ℤ) (scores : List ℚ)
deriving DecidableEq, Repr

/-- On-disk state relevant to `plot.roc_curve` in one method directory:
whether the directory exists and the lines of its `roc.csv` (or `none` when
the file is absent). -/
structure RocState where
  dirExists : Bool
  csv : Option (List CsvLine)
deriving DecidableEq, Repr

/-- Effects `roc_curve` can perform, in order of occurrence. -/
inductive RocEvent where
  /-- `os.makedirs(directory)` actually creating the method directory -/
  | mkdirMethodDir
  /-- `fig.savefig` of `{depth}-roc.png` -/
  | savePng
  /-- writing the `depth,scores` header of a fresh `roc.csv` -/
  | writeCsvHeader
  /-- appending the record line for this invocation -/
  | appendCsvRecord
deriving DecidableEq, Repr

/-- Number of positive samples: `sklearn.metrics.roc_curve` binarizes the
labels as `y == pos_label` with `pos_label = 1`. -/
def posCount (pairs : List (Nat × ℚ)) : Nat :=
  pairs.countP (fun p => p.1 == 1)

/-- Number of negative samples (every label other than 1). -/
def negCount (pairs : List (Nat × ℚ)) : Nat :=
  pairs.countP (fun p => p.1 != 1)

/-- True positives at threshold `t`: positive samples scored at least `t`. -/
def tpCount (pairs : List (Nat × ℚ)) (t : ℚ) : Nat :=
  pairs.countP (fun p => decide (t ≤ p.2) && (p.1 == 1))

/-- False positives at threshold `t`: negative samples scored at least `t`. -/
def fpCount (pairs : List (Nat × ℚ)) (t : ℚ) : Nat :=
  pairs.countP (fun p => decide (t ≤ p.2) && (p.1 != 1))

/-- Distinct score values in decreasing order: the thresholds swept by
`sklearn.metrics.roc_curve`. -/
def rocThresholds (pairs : List (Nat × ℚ)) : List ℚ :=
  ((pairs.map Prod.snd).dedup).insertionSort (· ≥ ·)

/-- ROC points `(fpr, tpr)`: the `(0, 0)` point `roc_curve` prepends, then one
point per threshold. -/
def rocPoints (pairs : List (Nat × ℚ)) : List (ℚ × ℚ) :=
  (0, 0) :: (rocThresholds pairs).map (fun t =>
    ((fpCount pairs t : ℚ) / (negCount pairs : ℚ),
     (tpCount pairs t : ℚ) / (posCount pairs : ℚ)))

/-- Trapezoidal area under a polyline: `sklearn.metrics.auc` via `np.trapz`. -/
def trapArea : List (ℚ × ℚ) → ℚ
  | [] => 0
  | [_] => 0
  | p :: q :: rest => (q.1 - p.1) * (p.2 + q.2) / 2 + trapArea (q :: rest)

/-- AUC of the scored samples.  When either class is absent, `roc_curve`'s
rate arrays divide by a zero class total and come out NaN, which `auc`
propagates; that is modelled as `none`. -/
def rocAuc (pairs : List (Nat × ℚ)) : Option ℚ :=
  if posCount pairs = 0 ∨ negCount pairs = 0 then none
  else some (trapArea (rocPoints pairs))

/-- Model of `plot.roc_curve`.  `trueLabels` models the `true_labels` mapping
and `anomalies` the `anomalies` dict as a key-ordered association list;
`sorted(list(anomalies.items()))` sorts the records by key (dict keys are
distinct, so comparing keys suffices).  Returns the AUC, the new directory
state, and the effects performed. -/
def roc_curve (trueLabels : Nat → Nat) (anomalies : List (Nat × ℚ))
    (depth : ℤ) (save : Bool) (st : RocState) :
    Option ℚ × RocState × List RocEvent :=
  let pairs := anomalies.map (fun kv => (trueLabels kv.1, kv.2))
  let auc := rocAuc pairs
  let evs := if st.dirExists then ([] : List RocEvent) else [.mkdirMethodDir]
  let evs := if save then evs ++ [.savePng] else evs
  let line := CsvLine.record depth
    ((anomalies.insertionSort (fun a b => a.1 ≤ b.1)).map Prod.snd)
  match st.csv with
  | none =>
    (auc, { dirExists := true, csv := some [CsvLine.header, line] },
     evs ++ [.writeCsvHeader, .appendCsvRecord])
  | some ls =>
    (auc, { dirExists := true, csv := some (ls ++ [line]) },
     evs ++ [.appendCsvRecord])

/-! Helper definitions and lemmas shared by the claim theorems. -/

/-- Fresh filesystem: no data directory, no raw file, no caches. -/
def emptyFS : FSState :=
  { dataDirExists := false, matFile := none, dataNpy := none, labelsNpy := none }

/-- Deterministic stand-in for `np.random.choice(_, k, replace=False)` used by
concrete witnesses: draw the first `k` population members. -/
def takeChoice : List Nat → Nat → List Nat :=
  fun population k => population.take k

/-- Identity stand-in for `pyclam.utils.normalize` used in witnesses. -/
def idNormalize : NDArray → String → NDArray := fun a _ => a

/-- Concrete feature matrix used in counterexample states. -/
def wineX : NDArray := { dtype := .float32, shape := [2, 2], vals := [1, 2, 3, 4] }

/-- Concrete label column used in counterexample states. -/
def wineY : NDArray := { dtype := .uint8, shape := [2, 1], vals := [0, 1] }

/-- Filesystem after a completed first `get("wine")`: raw file and both
caches present. -/
def cachedWineFS : FSState :=
  { dataDirExists := true
    matFile := some (.matfile [("X", wineX), ("y", wineY)])
    dataNpy := some (asarray .float32 wineX)
    labelsNpy := some (asarray .uint8 wineY) }

/-- Filesystem holding a cached 2-row dataset whose labels are all outliers
(no inlier at all). -/
def allOutlierFS : FSState :=
  { dataDirExists := true
    matFile := none
    dataNpy := some { dtype := .float32, shape := [2, 1], vals := [10, 20] }
    labelsNpy := some { dtype := .uint8, shape := [2, 1], vals := [1, 1] } }

/-- Filesystem holding a cached single-row dataset. -/
def singleRowFS : FSState :=
  { dataDirExists := true
    matFile := none
    dataNpy := some { dtype := .float32, shape := [1, 2], vals := [5, 6] }
    labelsNpy := some { dtype := .uint8, shape := [1, 1], vals := [1] } }

/-- Concrete 2-row data array used by the `embed_umap` witnesses. -/
def umapData : NDArray := { dtype := .float32, shape := [2, 1], vals := [7, 8] }

lemma lookup_eq_none_of_not_mem_keys {α : Type} (l : List (String × α)) (k : String)
    (h : k ∉ l.map Prod.fst) : l.lookup k = none := by
  induction l with
  | nil => rfl
  | cons p t ih =>
    have h1 : k ≠ p.1 := fun he => h (by simp [he])
    have h2 : k ∉ t.map Prod.fst := fun hm => h (by simp [hm])
    obtain ⟨a, b⟩ := p
    have hba : (k == a) = false := beq_eq_false_iff_ne.mpr h1
    simp only [List.lookup, hba]
    exact ih h2

lemma readLoaded_snd (chooseFn : List Nat → Nat → List Nat)
    (normalizeFn : NDArray → String → NDArray) (dataset : String)
    (mode : Option String) (subsample : Option Nat) (st : FSState)
    (evs : List WriteEvent) :
    (readLoaded chooseFn normalizeFn dataset mode subsample st evs).2 = (st, evs) := by
  unfold readLoaded
  split
  · rfl
  · split <;> rfl

lemma nrows_asarray (dt : DType) (a : NDArray) : nrows (asarray dt a) = nrows a := rfl

lemma vals_length_asarray (dt : DType) (a : NDArray) :
    (asarray dt a).vals.length = a.vals.length := List.length_map _ _

lemma vals_squeeze (a : NDArray) : (squeeze a).vals = a.vals := rfl

/-! Claim theorems. -/

/-- C1: contrary to the claim, `get` on the no-download name `"backdoor"`
raises a lookup error (`KeyError`) at the initial `DATASET_LINKS[dataset]`
URL lookup, before the `OTHER_DATASETS` membership test can run: the
`elif dataset not in OTHER_DATASETS` branch of the source is unreachable for
every no-download name.  The filesystem is untouched. -/
theorem get_backdoor_raises_lookup_error :
    get none "backdoor" emptyFS = (.error (.keyError "backdoor"), emptyFS, []) ∧
    "backdoor" ∈ OTHER_DATASETS ∧ "backdoor" ∉ DATASET_LINKS.map Prod.fst := by
  exact ⟨rfl, by decide, by decide⟩

/-- C4: a dataset name in neither `DATASET_LINKS` nor `OTHER_DATASETS` makes
`get` raise `KeyError` (a `LookupError` subclass) at its very first line: the
returned state is the input state and no write event — directory creation,
raw-file download, or cache save — occurs. -/
theorem get_unknown_name_lookup_error_untouched
    (dataset : String) (download : Option MatContent) (st : FSState)
    (hlink : dataset ∉ DATASET_LINKS.map Prod.fst)
    (_hother : dataset ∉ OTHER_DATASETS) :
    get download dataset st = (.error (.keyError dataset), st, []) := by
  unfold get
  rw [lookup_eq_none_of_not_mem_keys _ _ hlink]

theorem get_unknown_name_lookup_error_untouched_witness :
    ("mystery" ∉ DATASET_LINKS.map Prod.fst ∧ "mystery" ∉ OTHER_DATASETS) ∧
    get none "mystery" emptyFS = (.error (.keyError "mystery"), emptyFS, []) :=
  ⟨⟨by decide, by decide⟩,
    get_unknown_name_lookup_error_untouched "mystery" none emptyFS (by decide) (by decide)⟩

/-- C9: the keys of `DATASET_LINKS` are pairwise distinct (each downloadable
name has exactly one URL), the keys of `SHORT_NAMES` are pairwise distinct
(at most one label per name), and every downloadable name has a short name. -/
theorem registry_keys_unique_with_short_names :
    (DATASET_LINKS.map Prod.fst).Nodup ∧ (SHORT_NAMES.map Prod.fst).Nodup ∧
    ∀ k ∈ DATASET_LINKS.map Prod.fst, k ∈ SHORT_NAMES.map Prod.fst := by
  decide

/-- C2 counterexample: with both caches already created by a first `get`, a
further direct call to `get` re-parses the raw file and re-saves both cache
files — the write events `writeDataNpy` and `writeLabelsNpy` occur again,
refuting "never rewritten by the program afterwards". -/
theorem get_second_call_rewrites_caches :
    cachedWineFS.dataNpy.isSome = true ∧ cachedWineFS.labelsNpy.isSome = true ∧
    (get none "wine" cachedWineFS).2.2 = [.writeDataNpy, .writeLabelsNpy] := by
  exact ⟨rfl, rfl, rfl⟩

/-- C2 amended: once the feature cache exists, `read` never writes: it skips
the `get` call, loads the caches, and returns with the filesystem unchanged
and an empty write-event list (only a direct call to `get` re-saves the
caches). -/
theorem read_with_cache_never_writes
    (download : Option MatContent) (chooseFn : List Nat → Nat → List Nat)
    (normalizeFn : NDArray → String → NDArray) (dataset : String)
    (mode : Option String) (subsample : Option Nat) (st : FSState)
    (h : st.dataNpy.isSome = true) :
    (read download chooseFn normalizeFn dataset mode subsample st).2 = (st, []) := by
  unfold read
  rw [if_pos h]
  exact readLoaded_snd chooseFn normalizeFn dataset mode subsample st []

theorem read_with_cache_never_writes_witness :
    cachedWineFS.dataNpy.isSome = true ∧
    (read none takeChoice (fun a _ => a) "wine" none none cachedWineFS).2 =
      (cachedWineFS, []) :=
  ⟨rfl, read_with_cache_never_writes none takeChoice (fun a _ => a) "wine" none none
    cachedWineFS rfl⟩

/-- C3 counterexample: for a dataset with n = 2 rows, o = 2 outliers and
i = 0 inliers, subsample s = 1 < n requests `1 + int(1·0/2) = 1` inlier —
more than the zero available, so the per-class bound of the claim fails and
`np.random.choice` raises a `ValueError` inside `read`. -/
theorem subsample_all_outliers_overdraws :
    inlierDraw 1 0 2 = 1 ∧ ¬ inlierDraw 1 0 2 ≤ 0 ∧
    (read none takeChoice (fun a _ => a) "cover" none (some 1) allOutlierFS).1 =
      .error (.valueError
        "Cannot take a larger sample than population when replace=False") := by
  exact ⟨rfl, by decide, rfl⟩

/-- C3 amended: provided the dataset has at least one inlier (i ≥ 1), the
stratified subsampling of `read` requests `int(s·o/n)` outliers and
`1 + int(s·i/n)` inliers, each within its class's available count, and the
total request lies in {s-1, s, s+1} (indeed always in {s, s+1}). -/
theorem subsample_draw_bounds (s o i n : Nat)
    (hs : s < n) (hn : o + i = n) (hi : 1 ≤ i) :
    outlierDraw s o n ≤ o ∧ inlierDraw s i n ≤ i ∧
    (outlierDraw s o n + inlierDraw s i n = s - 1 ∨
     outlierDraw s o n + inlierDraw s i n = s ∨
     outlierDraw s o n + inlierDraw s i n = s + 1) := by
  have hn0 : 0 < n := lt_of_le_of_lt (Nat.zero_le s) hs
  have hout : outlierDraw s o n ≤ o := by
    unfold outlierDraw
    calc s * o / n ≤ n * o / n := Nat.div_le_div_right (Nat.mul_le_mul_right o hs.le)
    _ = o := Nat.mul_div_cancel_left o hn0
  have hin : inlierDraw s i n ≤ i := by
    unfold inlierDraw
    have hlt : s * i / n < i := by
      rw [Nat.div_lt_iff_lt_mul hn0]
      calc s * i < n * i := Nat.mul_lt_mul_of_pos_right hs (by omega)
      _ = i * n := Nat.mul_comm n i
    omega
  refine ⟨hout, hin, ?_⟩
  have hsum : (s * o + s * i) / n = s := by
    rw [← Nat.left_distrib, hn, Nat.mul_div_cancel s hn0]
  have key := Nat.add_div (a := s * o) (b := s * i) hn0
  rw [hsum] at key
  unfold outlierDraw inlierDraw
  by_cases hc : n ≤ s * o % n + s * i % n
  · rw [if_pos hc] at key
    omega
  · rw [if_neg hc] at key
    omega

theorem subsample_draw_bounds_witness :
    ((1 : Nat) < 2 ∧ 1 + 1 = 2 ∧ (1 : Nat) ≤ 1) ∧
    (outlierDraw 1 1 2 ≤ 1 ∧ inlierDraw 1 1 2 ≤ 1 ∧
     (outlierDraw 1 1 2 + inlierDraw 1 1 2 = 0 ∨
      outlierDraw 1 1 2 + inlierDraw 1 1 2 = 1 ∨
      outlierDraw 1 1 2 + inlierDraw 1 1 2 = 2)) :=
  ⟨⟨by decide, by decide, by decide⟩,
    subsample_draw_bounds 1 1 1 2 (by decide) (by decide) (by decide)⟩

lemma nrows_congr {a b : NDArray} (h : a.shape = b.shape) : nrows a = nrows b := by
  unfold nrows; rw [h]

lemma applyMode_shape (normalizeFn : NDArray → String → NDArray)
    (mode : Option String) (a : NDArray)
    (hnorm : ∀ b m, (normalizeFn b m).shape = b.shape) :
    (applyMode normalizeFn mode a).shape = a.shape := by
  cases mode with
  | none => rfl
  | some m => exact hnorm a m

lemma read_cached_eq (download : Option MatContent) (c : List Nat → Nat → List Nat)
    (nf : NDArray → String → NDArray) (dataset : String) (mode : Option String)
    (subsample : Option Nat) (st : FSState) (d l : NDArray)
    (hd : st.dataNpy = some d) (hl : st.labelsNpy = some l) :
    read download c nf dataset mode subsample st =
      ((selectSamples c d l subsample).map (finalize nf mode), st, []) := by
  have hds : st.dataNpy.isSome = true := by rw [hd]; rfl
  unfold read
  rw [if_pos hds]
  unfold readLoaded
  rw [hd, hl]

lemma selectSamples_skip (c : List Nat → Nat → List Nat) (data labels : NDArray)
    (subsample : Option Nat)
    (h : subsample = none ∨ ∃ s, subsample = some s ∧ nrows data ≤ s) :
    selectSamples c data labels subsample = .ok (data, labels) := by
  rcases h with h | ⟨s, hs, hns⟩
  · subst h; rfl
  · subst hs
    simp [selectSamples, not_lt.mpr hns]

/-- C10: with `subsample = None` or `subsample ≥ n`, `read` never reaches the
random draw — its entire result is independent of the sampler — and the
returned features and labels cover all `n` rows of the cached arrays. -/
theorem read_no_subsample_covers_all_rows
    (download : Option MatContent) (c₁ c₂ : List Nat → Nat → List Nat)
    (normalizeFn : NDArray → String → NDArray) (dataset : String)
    (mode : Option String) (subsample : Option Nat) (st : FSState)
    (d l : NDArray) (hd : st.dataNpy = some d) (hl : st.labelsNpy = some l)
    (hnorm : ∀ a m, (normalizeFn a m).shape = a.shape)
    (hsub : subsample = none ∨ ∃ s, subsample = some s ∧ nrows d ≤ s) :
    read download c₁ normalizeFn dataset mode subsample st =
      read download c₂ normalizeFn dataset mode subsample st ∧
    ∃ df lf,
      (read download c₁ normalizeFn dataset mode subsample st).1 = .ok (df, lf) ∧
      nrows df = nrows d ∧ lf.vals.length = l.vals.length := by
  rw [read_cached_eq download c₁ normalizeFn dataset mode subsample st d l hd hl,
      read_cached_eq download c₂ normalizeFn dataset mode subsample st d l hd hl,
      selectSamples_skip c₁ d l subsample hsub, selectSamples_skip c₂ d l subsample hsub]
  refine ⟨rfl, _, _, rfl, ?_, ?_⟩
  · show nrows (asarray .float32 (applyMode normalizeFn mode d)) = nrows d
    rw [nrows_asarray]
    exact nrows_congr (applyMode_shape normalizeFn mode d hnorm)
  · show (asarray .uint8 (squeeze l)).vals.length = l.vals.length
    rw [vals_length_asarray, vals_squeeze]

theorem read_no_subsample_covers_all_rows_witness :
    (cachedWineFS.dataNpy = some (asarray .float32 wineX) ∧
     cachedWineFS.labelsNpy = some (asarray .uint8 wineY) ∧
     (∀ (a : NDArray) (m : String), (idNormalize a m).shape = a.shape) ∧
     ((none : Option Nat) = none ∨ ∃ s, (none : Option Nat) = some s ∧
       nrows (asarray .float32 wineX) ≤ s)) ∧
    (read none takeChoice idNormalize "wine" none none cachedWineFS =
      read none (fun _ _ => [0]) idNormalize "wine" none none cachedWineFS ∧
    ∃ df lf,
      (read none takeChoice idNormalize "wine" none none cachedWineFS).1 = .ok (df, lf) ∧
      nrows df = nrows (asarray .float32 wineX) ∧
      lf.vals.length = (asarray .uint8 wineY).vals.length) :=
  ⟨⟨rfl, rfl, fun _ _ => rfl, Or.inl rfl⟩,
    read_no_subsample_covers_all_rows none takeChoice (fun _ _ => [0]) idNormalize
      "wine" none none cachedWineFS (asarray .float32 wineX) (asarray .uint8 wineY)
      rfl rfl (fun _ _ => rfl) (Or.inl rfl)⟩

lemma selectSamples_ok_cases (c : List Nat → Nat → List Nat)
    (data labels : NDArray) (subsample : Option Nat) (dl : NDArray × NDArray)
    (hsel : selectSamples c data labels subsample = .ok dl) :
    dl = (data, labels) ∨
    ∃ samples : List Nat,
      (∀ idx ∈ samples, idx < nrows data) ∧ (∀ idx ∈ samples, idx < nrows labels) ∧
      dl = (asarray .float64 (gatherRows data samples),
            asarray .int64 (gatherRows labels samples)) := by
  cases subsample with
  | none =>
    simp only [selectSamples] at hsel
    injection hsel with h
    exact Or.inl h.symm
  | some s =>
    simp only [selectSamples] at hsel
    split at hsel
    · split at hsel
      · split at hsel
        · injection hsel with h
          rename_i h3
          simp only [Bool.and_eq_true, List.all_eq_true, decide_eq_true_eq] at h3
          right
          exact ⟨_, h3.1, h3.2, h.symm⟩
        · exact Except.noConfusion hsel
      · exact Except.noConfusion hsel
    · injection hsel with h
      exact Or.inl h.symm

lemma read_ok_inversion
    (download : Option MatContent) (c : List Nat → Nat → List Nat)
    (nf : NDArray → String → NDArray) (dataset : String) (mode : Option String)
    (subsample : Option Nat) (st : FSState) (d l df lf : NDArray)
    (st2 : FSState) (evs2 : List WriteEvent)
    (hd : st.dataNpy = some d) (hl : st.labelsNpy = some l)
    (hok : read download c nf dataset mode subsample st = (.ok (df, lf), st2, evs2)) :
    ∃ dl, selectSamples c d l subsample = .ok dl ∧
      df = asarray .float32 (applyMode nf mode dl.1) ∧
      lf = asarray .uint8 (squeeze dl.2) := by
  rw [read_cached_eq download c nf dataset mode subsample st d l hd hl] at hok
  have h1 : (selectSamples c d l subsample).map (finalize nf mode) = .ok (df, lf) :=
    congrArg Prod.fst hok
  cases hsel : selectSamples c d l subsample with
  | error e => rw [hsel] at h1; exact Except.noConfusion h1
  | ok dl =>
    rw [hsel] at h1
    simp only [Except.map] at h1
    injection h1 with h2
    exact ⟨dl, rfl, (congrArg Prod.fst h2).symm, (congrArg Prod.snd h2).symm⟩

lemma takeRow_length (a : NDArray) (i : Nat) (hi : i < nrows a)
    (hv : a.vals.length = nrows a * rowLen a) : (takeRow a i).length = rowLen a := by
  unfold takeRow
  rw [List.length_take, List.length_drop, hv]
  have h1 : (i + 1) * rowLen a ≤ nrows a * rowLen a := Nat.mul_le_mul_right _ hi
  have h2 : i * rowLen a + rowLen a = (i + 1) * rowLen a := by ring
  omega

lemma gather_flatten_length (a : NDArray) :
    ∀ idxs : List Nat, (∀ i ∈ idxs, i < nrows a) →
      a.vals.length = nrows a * rowLen a →
      ((idxs.map (takeRow a)).flatten).length = idxs.length * rowLen a := by
  intro idxs
  induction idxs with
  | nil => intro _ _; simp
  | cons x xs ih =>
    intro hb hv
    simp only [List.map_cons, List.flatten_cons, List.length_append, List.length_cons]
    rw [takeRow_length a x (hb x (List.mem_cons_self x xs)) hv,
        ih (fun i hi => hb i (List.mem_cons_of_mem x hi)) hv]
    ring

lemma gatherRows_vals_length (a : NDArray) (idxs : List Nat)
    (hb : ∀ i ∈ idxs, i < nrows a) (hv : a.vals.length = nrows a * rowLen a) :
    (gatherRows a idxs).vals.length = idxs.length * rowLen a :=
  gather_flatten_length a idxs hb hv

lemma colArray_vals_spec (l : NDArray) (h : l.shape = [l.vals.length, 1]) :
    l.vals.length = nrows l * rowLen l := by
  unfold nrows rowLen
  rw [h]
  simp

lemma rowLen_col (l : NDArray) (v : Nat) (h : l.shape = [v, 1]) : rowLen l = 1 := by
  unfold rowLen
  rw [h]
  rfl

lemma squeeze_shape_col (v : Nat) (a : NDArray) (h : a.shape = [v, 1]) :
    (squeeze a).shape = if v = 1 then [] else [v] := by
  unfold squeeze
  rw [h]
  by_cases hv : v = 1
  · subst hv; rfl
  · rw [if_neg hv]
    simp [List.filter_cons, hv]

lemma selectSamples_ok_labels_col (c : List Nat → Nat → List Nat)
    (data labels : NDArray) (subsample : Option Nat) (dl : NDArray × NDArray)
    (hlshape : labels.shape = [labels.vals.length, 1])
    (hsel : selectSamples c data labels subsample = .ok dl) :
    dl.2.shape = [dl.2.vals.length, 1] := by
  rcases selectSamples_ok_cases c data labels subsample dl hsel with hq | ⟨samples, _, hbl, hq⟩
  · rw [hq]
    exact hlshape
  · rw [hq]
    have hvl : (asarray .int64 (gatherRows labels samples)).vals.length = samples.length := by
      rw [vals_length_asarray,
          gatherRows_vals_length labels samples hbl (colArray_vals_spec labels hlshape),
          rowLen_col labels labels.vals.length hlshape, Nat.mul_one]
    have hsh : (asarray .int64 (gatherRows labels samples)).shape = [samples.length, 1] := by
      show samples.length :: labels.shape.tail = [samples.length, 1]
      rw [hlshape, List.tail_cons]
    rw [hsh, hvl]

/-- C8 counterexample: reading a cached dataset with a single row squeezes the
`(1, 1)` label array down to a zero-dimensional scalar, not a one-dimensional
vector: `np.squeeze` removes every singleton dimension. -/
theorem read_single_row_zero_dim_labels :
    (read none takeChoice idNormalize "wbc" none none singleRowFS).1 =
      .ok ({ dtype := .float32, shape := [1, 2], vals := [5, 6] },
           { dtype := .uint8, shape := [], vals := [1] }) ∧
    ({ dtype := .uint8, shape := [], vals := [1] } : NDArray).shape.length ≠ 1 := by
  exact ⟨rfl, by decide⟩

/-- C8 amended: every successful `read` returns float32 features and uint8
labels; the label array is one-dimensional whenever it holds two or more
entries, but a single returned label is squeezed to a zero-dimensional
scalar. -/
theorem read_dtypes_and_squeezed_labels
    (download : Option MatContent) (c : List Nat → Nat → List Nat)
    (nf : NDArray → String → NDArray) (dataset : String) (mode : Option String)
    (subsample : Option Nat) (st : FSState) (d l df lf : NDArray)
    (st2 : FSState) (evs2 : List WriteEvent)
    (hd : st.dataNpy = some d) (hl : st.labelsNpy = some l)
    (hlshape : l.shape = [l.vals.length, 1])
    (hok : read download c nf dataset mode subsample st = (.ok (df, lf), st2, evs2)) :
    df.dtype = .float32 ∧ lf.dtype = .uint8 ∧
    (lf.vals.length ≠ 1 → lf.shape = [lf.vals.length]) ∧
    (lf.vals.length = 1 → lf.shape = []) := by
  obtain ⟨dl, hsel, hdf, hlf⟩ := read_ok_inversion download c nf dataset mode subsample
    st d l df lf st2 evs2 hd hl hok
  have hcol : dl.2.shape = [dl.2.vals.length, 1] :=
    selectSamples_ok_labels_col c d l subsample dl hlshape hsel
  have hlen : lf.vals.length = dl.2.vals.length := by
    rw [hlf, vals_length_asarray, vals_squeeze]
  have hshape : lf.shape = (squeeze dl.2).shape := by rw [hlf]; rfl
  refine ⟨by rw [hdf]; rfl, by rw [hlf]; rfl, ?_, ?_⟩
  · intro hne
    rw [hshape, squeeze_shape_col dl.2.vals.length dl.2 hcol,
        if_neg (fun he => hne (by rw [hlen, he])), ← hlen]
  · intro he
    rw [hshape, squeeze_shape_col dl.2.vals.length dl.2 hcol,
        if_pos (by rw [← hlen, he])]

theorem read_dtypes_and_squeezed_labels_witness :
    (cachedWineFS.dataNpy = some (asarray .float32 wineX) ∧
     cachedWineFS.labelsNpy = some (asarray .uint8 wineY) ∧
     (asarray .uint8 wineY).shape = [(asarray .uint8 wineY).vals.length, 1] ∧
     read none takeChoice idNormalize "wine" none none cachedWineFS =
       (.ok (asarray .float32 (asarray .float32 wineX),
             asarray .uint8 (squeeze (asarray .uint8 wineY))), cachedWineFS, [])) ∧
    ((asarray .float32 (asarray .float32 wineX)).dtype = .float32 ∧
     (asarray .uint8 (squeeze (asarray .uint8 wineY))).dtype = .uint8 ∧
     ((asarray .uint8 (squeeze (asarray .uint8 wineY))).vals.length ≠ 1 →
       (asarray .uint8 (squeeze (asarray .uint8 wineY))).shape =
         [(asarray .uint8 (squeeze (asarray .uint8 wineY))).vals.length]) ∧
     ((asarray .uint8 (squeeze (asarray .uint8 wineY))).vals.length = 1 →
       (asarray .uint8 (squeeze (asarray .uint8 wineY))).shape = [])) :=
  ⟨⟨rfl, rfl, rfl, rfl⟩,
    read_dtypes_and_squeezed_labels none takeChoice idNormalize "wine" none none
      cachedWineFS (asarray .float32 wineX) (asarray .uint8 wineY)
      (asarray .float32 (asarray .float32 wineX))
      (asarray .uint8 (squeeze (asarray .uint8 wineY)))
      cachedWineFS [] rfl rfl rfl rfl⟩

lemma get_download_success
    (dataset url : String) (entries : List (String × NDArray)) (x y : NDArray)
    (st : FSState)
    (hlink : DATASET_LINKS.lookup dataset = some url)
    (hmat : st.matFile = none)
    (hx : entries.lookup "X" = some x) (hy : entries.lookup "y" = some y) :
    get (some (.matfile entries)) dataset st =
      (.ok (),
       { dataDirExists := true
         matFile := some (.matfile entries)
         dataNpy := some (asarray .float32 x)
         labelsNpy := some (asarray .uint8 y) },
       (if st.dataDirExists then [] else [.mkdirDataDir]) ++
         [.writeMatFile, .writeDataNpy, .writeLabelsNpy]) := by
  obtain ⟨dirE, mat, dn, ln⟩ := st
  simp only at hmat
  subst hmat
  cases dirE <;> simp [get, hlink, parseMat, hx, hy]

/-- C7: for a registry dataset whose downloaded matrix file pairs an `n`-row
feature matrix `X` with an `n`-entry label column `y`, `get` succeeds, and
every subsequent successful `read` — with or without subsampling, with or
without a (shape-preserving) normalization — returns a feature matrix and a
label vector whose row counts match, since both are indexed by the same
sample list. -/
theorem get_then_read_matching_row_counts
    (dataset url : String) (entries : List (String × NDArray)) (x y : NDArray)
    (st : FSState)
    (hlink : DATASET_LINKS.lookup dataset = some url)
    (hmat : st.matFile = none)
    (hx : entries.lookup "X" = some x) (hy : entries.lookup "y" = some y)
    (hyshape : y.shape = [y.vals.length, 1])
    (hrows : nrows x = y.vals.length) :
    ∃ st1 evs1, get (some (.matfile entries)) dataset st = (.ok (), st1, evs1) ∧
      ∀ (download : Option MatContent) (c : List Nat → Nat → List Nat)
        (nf : NDArray → String → NDArray) (mode : Option String)
        (subsample : Option Nat) (df lf : NDArray) (st2 : FSState)
        (evs2 : List WriteEvent),
        (∀ a m, (nf a m).shape = a.shape) →
        read download c nf dataset mode subsample st1 = (.ok (df, lf), st2, evs2) →
        nrows df = lf.vals.length := by
  refine ⟨_, _, get_download_success dataset url entries x y st hlink hmat hx hy, ?_⟩
  intro download c nf mode subsample df lf st2 evs2 hnorm hok
  obtain ⟨dl, hsel, hdf, hlf⟩ := read_ok_inversion download c nf dataset mode subsample
    _ (asarray .float32 x) (asarray .uint8 y) df lf st2 evs2 rfl rfl hok
  have hlshape : (asarray .uint8 y).shape = [(asarray .uint8 y).vals.length, 1] := by
    show y.shape = [(asarray .uint8 y).vals.length, 1]
    rw [vals_length_asarray]
    exact hyshape
  rcases selectSamples_ok_cases c (asarray .float32 x) (asarray .uint8 y) subsample dl hsel
    with hq | ⟨samples, hbd, hbl, hq⟩
  · rw [hq] at hdf hlf
    dsimp only at hdf hlf
    rw [hdf, hlf, nrows_asarray, vals_length_asarray, vals_squeeze, vals_length_asarray,
        nrows_congr (applyMode_shape nf mode _ hnorm), nrows_asarray]
    exact hrows
  · rw [hq] at hdf hlf
    dsimp only at hdf hlf
    rw [hdf, hlf, nrows_asarray, vals_length_asarray, vals_squeeze, vals_length_asarray,
        nrows_congr (applyMode_shape nf mode _ hnorm), nrows_asarray,
        gatherRows_vals_length (asarray .uint8 y) samples hbl
          (colArray_vals_spec _ hlshape),
        rowLen_col _ ((asarray DType.uint8 y).vals.length) hlshape, Nat.mul_one]
    rfl

theorem get_then_read_matching_row_counts_witness :
    (DATASET_LINKS.lookup "wine" =
       some "https://www.dropbox.com/s/uvjaudt2uto7zal/wine.mat?dl=0" ∧
     emptyFS.matFile = none ∧
     [("X", wineX), ("y", wineY)].lookup "X" = some wineX ∧
     [("X", wineX), ("y", wineY)].lookup "y" = some wineY ∧
     wineY.shape = [wineY.vals.length, 1] ∧
     nrows wineX = wineY.vals.length) ∧
    (∃ st1 evs1,
      get (some (.matfile [("X", wineX), ("y", wineY)])) "wine" emptyFS =
        (.ok (), st1, evs1) ∧
      ∀ (download : Option MatContent) (c : List Nat → Nat → List Nat)
        (nf : NDArray → String → NDArray) (mode : Option String)
        (subsample : Option Nat) (df lf : NDArray) (st2 : FSState)
        (evs2 : List WriteEvent),
        (∀ a m, (nf a m).shape = a.shape) →
        read download c nf "wine" mode subsample st1 = (.ok (df, lf), st2, evs2) →
        nrows df = lf.vals.length) :=
  ⟨⟨rfl, rfl, rfl, rfl, rfl, rfl⟩,
    get_then_read_matching_row_counts "wine"
      "https://www.dropbox.com/s/uvjaudt2uto7zal/wine.mat?dl=0"
      [("X", wineX), ("y", wineY)] wineX wineY emptyFS rfl rfl rfl rfl rfl rfl⟩

/-- C5 counterexample: when the destination file exists but holds fewer
values than `data.shape[0] * n_components`, `embed_umap` performs no
computation and no write, but the read-only memory map raises a size error
instead of returning the mapped array — so the claim's "returns the file's
contents as a float32 array of shape (rows, n_components)" fails for a
too-short pre-existing file. -/
theorem embed_umap_short_file_raises :
    embed_umap (fun _ _ _ _ => []) { dtype := .float32, shape := [2, 3], vals := [0, 0, 0, 0, 0, 0] }
      15 1 "euclidean" { file := some [0] } =
      (.error "mmap length is greater than file size", { file := some [0] }, []) := by
  rfl

/-- C5 amended: if the destination file exists and holds at least
`rows * n_components` values, `embed_umap` computes nothing, writes nothing,
and returns the mapped file prefix as a float32 `(rows, n_components)` array;
and whenever a call returns an array, an immediately repeated call with the
same data shape, `n_components` and destination returns the bit-identical
array (cache hit on the file the first call read or wrote). -/
theorem embed_umap_cache_contract
    (fit : NDArray → Nat → Nat → String → List ℚ) (data : NDArray)
    (nNeighbors nComponents : Nat) (metric : String) :
    (∀ st contents, st.file = some contents →
      nrows data * nComponents ≤ contents.length →
      embed_umap fit data nNeighbors nComponents metric st =
        (.ok { dtype := .float32, shape := [nrows data, nComponents],
               vals := contents.take (nrows data * nComponents) }, st, [])) ∧
    (∀ st st1 evs1 a1, embed_umap fit data nNeighbors nComponents metric st =
        (.ok a1, st1, evs1) →
      embed_umap fit data nNeighbors nComponents metric st1 = (.ok a1, st1, [])) := by
  constructor
  · intro st contents hfile hlen
    obtain ⟨f⟩ := st
    simp only at hfile
    subst hfile
    unfold embed_umap
    simp [memmapRead, hlen]
  · intro st st1 evs1 a1 h1
    obtain ⟨f⟩ := st
    cases f with
    | some contents =>
      unfold embed_umap at h1 ⊢
      have hst : st1 = ⟨some contents⟩ := (congrArg (fun z => z.2.1) h1).symm
      have hres : memmapRead contents (nrows data) nComponents = .ok a1 :=
        congrArg (fun z => z.1) h1
      subst hst
      dsimp only
      rw [hres]
    | none =>
      unfold embed_umap at h1
      by_cases hlen : (fit data nNeighbors nComponents metric).length =
          nrows data * nComponents
      · rw [if_pos hlen] at h1
        have hst : st1 = ⟨some (fit data nNeighbors nComponents metric)⟩ :=
          (congrArg (fun z => z.2.1) h1).symm
        have hres : memmapRead (fit data nNeighbors nComponents metric)
            (nrows data) nComponents = .ok a1 := congrArg (fun z => z.1) h1
        subst hst
        unfold embed_umap
        dsimp only
        rw [hres]
      · rw [if_neg hlen] at h1
        exact Except.noConfusion (congrArg (fun z => z.1) h1)

theorem embed_umap_cache_contract_witness :
    ((UmapState.mk (some [1, 2])).file = some ([1, 2] : List ℚ) ∧
     nrows umapData * 1 ≤ ([1, 2] : List ℚ).length ∧
     embed_umap (fun _ _ _ _ => ([3, 4] : List ℚ)) umapData 15 1 "euclidean"
       { file := some [1, 2] } =
       (.ok { dtype := .float32, shape := [nrows umapData, 1],
              vals := ([1, 2] : List ℚ).take (nrows umapData * 1) },
        { file := some [1, 2] }, [])) ∧
    embed_umap (fun _ _ _ _ => ([3, 4] : List ℚ)) umapData 15 1 "euclidean"
      { file := some [3, 4] } =
      (.ok { dtype := .float32, shape := [2, 1], vals := [3, 4] },
       { file := some [3, 4] }, []) :=
  ⟨⟨rfl, by decide,
    (embed_umap_cache_contract (fun _ _ _ _ => ([3, 4] : List ℚ)) umapData 15 1
      "euclidean").1 { file := some [1, 2] } [1, 2] rfl (by decide)⟩,
    (embed_umap_cache_contract (fun _ _ _ _ => ([3, 4] : List ℚ)) umapData 15 1
      "euclidean").2 { file := none } { file := some [3, 4] }
      [.computeEmbedding, .writeEmbeddingFile]
      { dtype := .float32, shape := [2, 1], vals := [3, 4] } rfl⟩

lemma fpCount_mono (pairs : List (Nat × ℚ)) {t t' : ℚ} (h : t' ≤ t) :
    fpCount pairs t ≤ fpCount pairs t' := by
  apply List.countP_mono_left
  intro p _ hp
  simp only [Bool.and_eq_true, decide_eq_true_eq] at hp ⊢
  exact ⟨le_trans h hp.1, hp.2⟩

lemma fpCount_le_neg (pairs : List (Nat × ℚ)) (t : ℚ) :
    fpCount pairs t ≤ negCount pairs := by
  apply List.countP_mono_left
  intro p _ hp
  exact (Bool.and_eq_true _ _ ▸ hp).2

lemma tpCount_le_pos (pairs : List (Nat × ℚ)) (t : ℚ) :
    tpCount pairs t ≤ posCount pairs := by
  apply List.countP_mono_left
  intro p _ hp
  exact (Bool.and_eq_true _ _ ▸ hp).2

lemma rocPoints_chain (pairs : List (Nat × ℚ)) :
    (rocPoints pairs).Chain' (fun p q => p.1 ≤ q.1) := by
  unfold rocPoints
  rw [List.chain'_cons']
  constructor
  · intro q hq
    obtain ⟨t, _, rfl⟩ := List.mem_map.mp (List.mem_of_mem_head? hq)
    exact div_nonneg (Nat.cast_nonneg _) (Nat.cast_nonneg _)
  · apply List.Pairwise.chain'
    apply List.Pairwise.map
    · intro a b hab
      show (fpCount pairs a : ℚ) / (negCount pairs : ℚ) ≤
        (fpCount pairs b : ℚ) / (negCount pairs : ℚ)
      by_cases hc : (negCount pairs : ℚ) = 0
      · rw [hc, div_zero, div_zero]
      · have hpos : (0 : ℚ) < (negCount pairs : ℚ) :=
          lt_of_le_of_ne (Nat.cast_nonneg _) (Ne.symm hc)
        exact (div_le_div_iff_of_pos_right hpos).mpr
          (by exact_mod_cast fpCount_mono pairs hab)
    · exact List.sorted_insertionSort _ _

lemma rocPoints_mem_bounds (pairs : List (Nat × ℚ))
    (hP : posCount pairs ≠ 0) (hN : negCount pairs ≠ 0) :
    ∀ p ∈ rocPoints pairs, 0 ≤ p.1 ∧ p.1 ≤ 1 ∧ 0 ≤ p.2 ∧ p.2 ≤ 1 := by
  intro p hp
  rcases List.mem_cons.mp hp with h | h
  · subst h
    norm_num
  · obtain ⟨t, _, rfl⟩ := List.mem_map.mp h
    have hPpos : (0 : ℚ) < (posCount pairs : ℚ) := by
      exact_mod_cast Nat.pos_of_ne_zero hP
    have hNpos : (0 : ℚ) < (negCount pairs : ℚ) := by
      exact_mod_cast Nat.pos_of_ne_zero hN
    refine ⟨div_nonneg (Nat.cast_nonneg _) (Nat.cast_nonneg _), ?_,
      div_nonneg (Nat.cast_nonneg _) (Nat.cast_nonneg _), ?_⟩
    · rw [div_le_one hNpos]
      exact_mod_cast fpCount_le_neg pairs t
    · rw [div_le_one hPpos]
      exact_mod_cast tpCount_le_pos pairs t

lemma trapArea_nonneg : ∀ pts : List (ℚ × ℚ),
    pts.Chain' (fun p q => p.1 ≤ q.1) → (∀ p ∈ pts, 0 ≤ p.2) → 0 ≤ trapArea pts := by
  intro pts
  induction pts with
  | nil => intro _ _; simp [trapArea]
  | cons p rest ih =>
    cases rest with
    | nil => intro _ _; simp [trapArea]
    | cons q rest' =>
      intro hch hy
      rw [trapArea]
      have h1 : p.1 ≤ q.1 := (List.chain'_cons.mp hch).1
      have h2 := ih (List.chain'_cons.mp hch).2
        (fun r hr => hy r (List.mem_cons_of_mem p hr))
      have hy1 : 0 ≤ p.2 := hy p (List.mem_cons_self _ _)
      have hy2 : 0 ≤ q.2 := hy q (by simp)
      have hterm : 0 ≤ (q.1 - p.1) * (p.2 + q.2) / 2 := by
        have hnn : 0 ≤ q.1 - p.1 := sub_nonneg.mpr h1
        positivity
      linarith

lemma trapArea_le_lastX : ∀ (rest : List (ℚ × ℚ)) (p : ℚ × ℚ),
    (p :: rest).Chain' (fun a b => a.1 ≤ b.1) → (∀ q ∈ p :: rest, q.2 ≤ 1) →
    trapArea (p :: rest) ≤ (rest.getLastD p).1 - p.1 := by
  intro rest
  induction rest with
  | nil => intro p _ _; simp [trapArea]
  | cons q rest' ih =>
    intro p hch hy
    rw [trapArea]
    have h1 : p.1 ≤ q.1 := (List.chain'_cons.mp hch).1
    have h2 := ih q (List.chain'_cons.mp hch).2
      (fun r hr => hy r (List.mem_cons_of_mem p hr))
    have hy1 : p.2 ≤ 1 := hy p (List.mem_cons_self _ _)
    have hy2 : q.2 ≤ 1 := hy q (by simp)
    have hterm : (q.1 - p.1) * (p.2 + q.2) / 2 ≤ q.1 - p.1 := by
      have hnn : 0 ≤ q.1 - p.1 := sub_nonneg.mpr h1
      nlinarith
    rw [List.getLastD_cons]
    linarith

lemma getLastD_self_or_mem {α : Type} : ∀ (l : List α) (d : α),
    l.getLastD d = d ∨ l.getLastD d ∈ l := by
  intro l
  induction l with
  | nil => intro d; exact Or.inl rfl
  | cons a t ih =>
    intro d
    rw [List.getLastD_cons]
    rcases ih a with h | h
    · right; rw [h]; exact List.mem_cons_self _ _
    · right; exact List.mem_cons_of_mem a h

lemma rocAuc_bounds (pairs : List (Nat × ℚ))
    (hP : posCount pairs ≠ 0) (hN : negCount pairs ≠ 0) :
    ∃ a, rocAuc pairs = some a ∧ 0 ≤ a ∧ a ≤ 1 := by
  unfold rocAuc
  rw [if_neg (by push_neg; exact ⟨hP, hN⟩)]
  have hmb := rocPoints_mem_bounds pairs hP hN
  have hch := rocPoints_chain pairs
  refine ⟨_, rfl, ?_, ?_⟩
  · exact trapArea_nonneg _ hch (fun p hp => ((hmb p hp).2.2).1)
  · have hle := trapArea_le_lastX _ (0, 0) hch (fun p hp => ((hmb p hp).2.2).2)
    have hlast : (((rocThresholds pairs).map (fun t =>
        ((fpCount pairs t : ℚ) / (negCount pairs : ℚ),
         (tpCount pairs t : ℚ) / (posCount pairs : ℚ)))).getLastD ((0 : ℚ), (0 : ℚ))).1 ≤ 1 := by
      rcases getLastD_self_or_mem ((rocThresholds pairs).map (fun t =>
          ((fpCount pairs t : ℚ) / (negCount pairs : ℚ),
           (tpCount pairs t : ℚ) / (posCount pairs : ℚ)))) ((0 : ℚ), (0 : ℚ)) with h | h
      · rw [h]; norm_num
      · exact (hmb _ (List.mem_cons_of_mem _ h)).2.1
    show trapArea (rocPoints pairs) ≤ 1
    calc trapArea (rocPoints pairs) ≤ _ := hle
    _ ≤ 1 := by simpa using hlast

/-- C6 counterexample: when every scored sample carries the same label (here
all positive), `sklearn.metrics.roc_curve` divides by a zero class total, the
rate arrays are NaN, and the returned AUC is NaN rather than a number in
[0, 1] — modelled as `none`. -/
theorem roc_curve_single_class_no_auc :
    (roc_curve (fun _ => 1) [(0, (1 : ℚ) / 2)] 3 false
      { dirExists := false, csv := none }).1 = none := by
  rfl

/-- C6 amended: every invocation of `roc_curve` appends exactly one record
line (the depth followed by the key-sorted scores) to `roc.csv`, writes the
`depth,scores` header exactly when the file did not previously exist, and —
whenever the scored samples contain at least one positive and one negative
label — returns an AUC in the closed interval [0, 1]; with a single class
present the rates divide by a zero class total and no numeric AUC results
(NaN). -/
theorem roc_curve_appends_one_line_and_auc_bounds
    (trueLabels : Nat → Nat) (anomalies : List (Nat × ℚ)) (depth : ℤ)
    (save : Bool) (st : RocState) :
    (∀ ls, st.csv = some ls →
      (roc_curve trueLabels anomalies depth save st).2.1.csv =
        some (ls ++ [CsvLine.record depth
          ((anomalies.insertionSort (fun a b => a.1 ≤ b.1)).map Prod.snd)])) ∧
    (st.csv = none →
      (roc_curve trueLabels anomalies depth save st).2.1.csv =
        some [CsvLine.header, CsvLine.record depth
          ((anomalies.insertionSort (fun a b => a.1 ≤ b.1)).map Prod.snd)]) ∧
    (posCount (anomalies.map (fun kv => (trueLabels kv.1, kv.2))) ≠ 0 →
      negCount (anomalies.map (fun kv => (trueLabels kv.1, kv.2))) ≠ 0 →
      ∃ a, (roc_curve trueLabels anomalies depth save st).1 = some a ∧
        0 ≤ a ∧ a ≤ 1) := by
  refine ⟨?_, ?_, ?_⟩
  · intro ls hls
    unfold roc_curve
    rw [hls]
  · intro hnone
    unfold roc_curve
    rw [hnone]
  · intro hP hN
    have hb := rocAuc_bounds (anomalies.map (fun kv => (trueLabels kv.1, kv.2))) hP hN
    unfold roc_curve
    cases st.csv with
    | none => exact hb
    | some ls => exact hb

theorem roc_curve_appends_one_line_and_auc_bounds_witness :
    ((RocState.mk true (some [CsvLine.header])).csv = some [CsvLine.header] ∧
     posCount ([((0 : Nat), (3 : ℚ) / 10), (1, 7 / 10)].map
       (fun kv => ((fun k => k) kv.1, kv.2))) ≠ 0 ∧
     negCount ([((0 : Nat), (3 : ℚ) / 10), (1, 7 / 10)].map
       (fun kv => ((fun k => k) kv.1, kv.2))) ≠ 0) ∧
    ((roc_curve (fun k => k) [(0, 3 / 10), (1, 7 / 10)] 5 false
        (RocState.mk true (some [CsvLine.header]))).2.1.csv =
      some ([CsvLine.header] ++ [CsvLine.record 5
        (([((0 : Nat), (3 : ℚ) / 10), (1, 7 / 10)].insertionSort
          (fun a b => a.1 ≤ b.1)).map Prod.snd)]) ∧
     ∃ a, (roc_curve (fun k => k) [(0, 3 / 10), (1, 7 / 10)] 5 false
        (RocState.mk true (some [CsvLine.header]))).1 = some a ∧ 0 ≤ a ∧ a ≤ 1) :=
  ⟨⟨rfl, by decide, by decide⟩,
    (roc_curve_appends_one_line_and_auc_bounds (fun k => k)
      [(0, 3 / 10), (1, 7 / 10)] 5 false (RocState.mk true (some [CsvLine.header]))).1
      [CsvLine.header] rfl,
    (roc_curve_appends_one_line_and_auc_bounds (fun k => k)
      [(0, 3 / 10), (1, 7 / 10)] 5 false
      (RocState.mk true (some [CsvLine.header]))).2.2 (by decide) (by decide)⟩

end AnomalyDetection
